import Mathlib

/-
Verification of the `SIM_f110Env` environment (src/f110_gym/sim_f110_core.py)
against its natural-language specification.

Shallow embedding conventions:
- Python floats are modelled as rationals (ℚ); every comparison relevant here
  (against 0.05, -0.05, 0.06, -0.1, 0.0) is exact in both semantics.
- A Python function that may raise is modelled as returning `Option`; `none`
  is a propagated exception.  A Python function that returns the value `None`
  on success is modelled with an inner `Option` (see `process_lidar`).
- The AirSim client is an external black box; one call to `getLidarData` /
  `simGetImages` is modelled by the next element of a pre-recorded list of
  samples / responses carried by a `Client` value.  Real-time sleeps and
  actuator dispatch have no observable effect on the embedded state.
-/

namespace SIMf110

/-- A steering record, Python dict
`{"angle": _, "steering_angle_velocity": _, "speed": _}` (sim_f110_core.py:89). -/
structure Steer where
  angle : ℚ
  steering_angle_velocity : ℚ
  speed : ℚ
deriving DecidableEq

/-- The capacity of `self.history = deque(maxlen=500)` (sim_f110_core.py:60). -/
def maxlen : Nat := 500

/-- One `deque.append` on a `collections.deque(maxlen=m)`: the element joins the
tail and, if the size would exceed `m`, the oldest elements are dropped from
the head. -/
def deque_append {α : Type} (m : Nat) (buf : List α) (x : α) : List α :=
  if m < buf.length + 1 then (buf ++ [x]).drop (buf.length + 1 - m) else buf ++ [x]

/-- The placeholder steering record built each observation cycle
(sim_f110_core.py:89): all fields zero. -/
def zeroSteer : Steer := ⟨0, 0, 0⟩

/-- `SIM_f110Env.add_to_history` (sim_f110_core.py:142-145):
`if abs(steer["angle"]) > 0.05 and steer["angle"] < -0.05:` append the record
40 times to the bounded history deque. -/
def add_to_history (hist : List Steer) (steer : Steer) : List Steer :=
  if |steer.angle| > 5 / 100 ∧ steer.angle < -(5 / 100) then
    (List.range 40).foldl (fun h _ => deque_append maxlen h steer) hist
  else hist

/-- `np.reshape(pc, (-1, 3))` on a flat scalar list: groups into triples,
raising (here `none`) when the length is not divisible by 3. -/
def chunk3 : List ℚ → Option (List (ℚ × ℚ × ℚ))
  | [] => some []
  | a :: b :: c :: rest => (chunk3 rest).map (fun l => (a, b, c) :: l)
  | _ => none

/-- `SIM_f110Env.pc_to_np` (sim_f110_core.py:166-175): reshape the flat point
cloud into (N,3), keep columns 0..1, then write column 1 into output column 0
and column 0 into output column 1 — i.e. point (x,y,z) becomes pair (y,x). -/
def pc_to_np (pc : List ℚ) : Option (List (ℚ × ℚ)) :=
  (chunk3 pc).map (List.map (fun t => (t.2.1, t.1)))

/-- `SIM_f110Env.process_lidar` (sim_f110_core.py:177-193): computes
`pc_to_np` (whose reshape exception would propagate) and some dead locals, but
its `return pcnp` line is commented out, so on success the Python function
falls off the end and returns `None` (the inner `none`). -/
def process_lidar (pc : List ℚ) : Option (Option (List (ℚ × ℚ))) :=
  match pc_to_np pc with
  | none => none
  | some _ => some none

/-- The polling loop of `_get_obs` (sim_f110_core.py:82-85): call
`client.getLidarData()` until the returned point cloud has at least 3 scalars.
The argument is the pre-recorded sequence of successive samples; `none` means
the loop would spin forever (all remaining samples are short). -/
def pollLidar : List (List ℚ) → Option (List ℚ)
  | [] => none
  | s :: rest => if 3 ≤ s.length then some s else pollLidar rest

/-- One raw AirSim image response: declared height and width plus the flat byte
buffer `image_data_uint8`. -/
structure ImgResponse where
  height : Nat
  width : Nat
  image_data_uint8 : List Nat
deriving DecidableEq

/-- Row-major reshape of a flat buffer to an h × w × c nested array. -/
def reshape3 (data : List Nat) (h w c : Nat) : List (List (List Nat)) :=
  (List.range h).map fun i =>
    (List.range w).map fun j =>
      (List.range c).map fun k => data.getD ((i * w + j) * c + k) 0

/-- The `bytestr_to_np` lambda of `_get_imgs` (sim_f110_core.py:137):
`np.fromstring(rep.image_data_uint8, uint8).reshape(rep.height, rep.width, -1)`.
The channel count is inferred as length / (height*width); numpy raises (here
`none`) when height*width is 0 or does not divide the buffer length. -/
def bytestr_to_np (rep : ImgResponse) : Option (List (List (List Nat))) :=
  if rep.height * rep.width = 0 then none
  else if rep.height * rep.width ∣ rep.image_data_uint8.length then
    some (reshape3 rep.image_data_uint8 rep.height rep.width
      (rep.image_data_uint8.length / (rep.height * rep.width)))
  else none

/-- The recorded behaviour of the external AirSim client for one observation
cycle: the successive `getLidarData()` point clouds and the `simGetImages`
responses for the default single label list. -/
structure Client where
  lidarSamples : List (List ℚ)
  imgResponses : List ImgResponse

/-- `SIM_f110Env._get_imgs` (sim_f110_core.py:135-140): decode every response;
a decoding exception propagates. -/
def get_imgs (reps : List ImgResponse) : Option (List (List (List (List Nat)))) :=
  reps.mapM bytestr_to_np

/-- The observation dict `{'lidar_pc': ..., 'steer': ..., 'img': ...}` built by
`_get_obs` (sim_f110_core.py:90).  `lidar_pc` holds whatever Python value
`process_lidar` returned (in the reference code: `None`). -/
structure Obs where
  lidar_pc : Option (List (ℚ × ℚ))
  steer : Steer
  img : List (List (List (List Nat)))
deriving DecidableEq

/-- `SIM_f110Env._get_obs` (sim_f110_core.py:77-92): fetch images, poll LiDAR
until a sample with ≥ 3 scalars arrives, run `process_lidar`, build the zeroed
steering record, feed it to `add_to_history`, return the observation together
with the updated history. -/
def get_obs (c : Client) (hist : List Steer) : Option (Obs × List Steer) :=
  match get_imgs c.imgResponses with
  | none => none
  | some imgs =>
    match pollLidar c.lidarSamples with
    | none => none
    | some pc =>
      match process_lidar pc with
      | none => none
      | some lidarData =>
        some (⟨lidarData, zeroSteer, imgs⟩, add_to_history hist zeroSteer)

/-- `SIM_f110Env.reset` (sim_f110_core.py:94-100): the simulator-level reset
and the 1 s settle sleep are external effects; the observable result is
`_get_obs`. -/
def reset (c : Client) (hist : List Steer) : Option (Obs × List Steer) :=
  get_obs c hist

/-- `SIM_f110Env.get_reward` (sim_f110_core.py:102-106): constant stub. -/
def get_reward : ℤ := 0

/-- `SIM_f110Env.tooclose` (sim_f110_core.py:127-131): constant stub. -/
def tooclose : Bool := false

/-- The action dict `{"angle": float, "speed": float}`. -/
structure Action where
  angle : ℚ
  speed : ℚ

/-- The tuple `(obs, reward, done, info)` returned by `step`
(sim_f110_core.py:125); `info` is the empty dict. -/
structure StepResult where
  obs : Obs
  reward : ℤ
  done : Bool
  info : List (String × String)
deriving DecidableEq

/-- `SIM_f110Env.step` (sim_f110_core.py:108-125): dispatch the action to the
simulator (external effect), sleep 0.01 s, then assemble the observation,
reward, done flag and empty info dict. -/
def step (_action : Action) (c : Client) (hist : List Steer) :
    Option (StepResult × List Steer) :=
  match get_obs c hist with
  | none => none
  | some (obs, h) => some (⟨obs, get_reward, tooclose, []⟩, h)

/-- Flatten a list of 3D points into the raw scalar stream the sensor
delivers. -/
def flat3 : List (ℚ × ℚ × ℚ) → List ℚ
  | [] => []
  | t :: ts => t.1 :: t.2.1 :: t.2.2 :: flat3 ts

/-- One public-interface call, with the client state it sees. -/
inductive Op where
  | reset (c : Client)
  | step (a : Action) (c : Client)

/-- The history buffer after running one public-interface call from `hist`
(an exception leaves the buffer as it was when the exception was raised). -/
def runOp (hist : List Steer) : Op → List Steer
  | Op.reset c =>
    match reset c hist with
    | some p => p.2
    | none => hist
  | Op.step a c =>
    match step a c hist with
    | some p => p.2
    | none => hist

/-- A concrete 4-point (12-scalar) LiDAR sample, as in the spec's end-to-end
test. -/
def sample4 : List ℚ := [1, 2, 3, 4, 5, 6, 7, 8, 9, 10, 11, 12]

/-- A concrete client: one 4-point LiDAR sample and one well-formed 2×2
3-channel image response. -/
def client1 : Client := ⟨[sample4], [⟨2, 2, List.range 12⟩]⟩

/-- A steering record with angle -0.1 (well past the -0.05 threshold). -/
def negSteer : Steer := ⟨-(1 / 10), 0, 0⟩

/-- The observation `step`/`reset` produce on `client1`: the lidar field holds
Python `None`, the steering record is zeroed, and there is one decoded 2×2×3
image frame. -/
def obs1 : Obs :=
  ⟨none, zeroSteer, [[[[0, 1, 2], [3, 4, 5]], [[6, 7, 8], [9, 10, 11]]]]⟩

/-- The step tuple produced on `client1`. -/
def res1 : StepResult := ⟨obs1, 0, false, []⟩

end SIMf110

namespace SIMf110

-- Helper lemmas (shared across claim theorems).

lemma chunk3_flat3 (l : List (ℚ × ℚ × ℚ)) : chunk3 (flat3 l) = some l := by
  induction l with
  | nil => rfl
  | cons t ts ih => simp [flat3, chunk3, ih]

lemma add_to_history_zero (hist : List Steer) :
    add_to_history hist zeroSteer = hist := by
  unfold add_to_history
  rw [if_neg]
  rintro ⟨h1, -⟩
  norm_num [zeroSteer] at h1

lemma get_obs_hist (c : Client) (hist : List Steer) (p : Obs × List Steer)
    (h : get_obs c hist = some p) : p.2 = hist := by
  unfold get_obs at h
  split at h
  · cases h
  · split at h
    · cases h
    · split at h
      · cases h
      · cases h
        exact add_to_history_zero hist

lemma runOp_fix (hist : List Steer) (op : Op) : runOp hist op = hist := by
  cases op with
  | reset c =>
    rcases hr : reset c hist with - | p
    · simp [runOp, hr]
    · simp only [runOp, hr]
      exact get_obs_hist c hist p hr
  | step a c =>
    rcases hg : get_obs c hist with - | q
    · simp [runOp, step, hg]
    · rcases q with ⟨o, h2⟩
      simp only [runOp, step, hg]
      exact get_obs_hist c hist (o, h2) hg

lemma foldl_deque_append (m : Nat) (xs : List Steer) :
    xs.foldl (deque_append m) [] = xs.drop (xs.length - m) := by
  induction xs using List.reverseRecOn with
  | nil => simp
  | append_singleton xs x ih =>
    rw [List.foldl_append, List.foldl_cons, List.foldl_nil, ih]
    unfold deque_append
    have hdl : (List.drop (xs.length - m) xs).length = xs.length - (xs.length - m) := by
      simp
    by_cases hm : m ≤ xs.length
    · have hcond : m < (List.drop (xs.length - m) xs).length + 1 := by
        rw [hdl]; omega
      rw [if_pos hcond, hdl,
        show xs.length - (xs.length - m) + 1 - m = 1 from by omega,
        show (xs ++ [x]).length - m = xs.length + 1 - m from by simp]
      rcases Nat.eq_zero_or_pos m with hz | hpos
      · subst hz
        rw [Nat.sub_zero, List.drop_length]
        simp
      · have h1 : (1 : Nat) ≤ (List.drop (xs.length - m) xs).length := by
          rw [hdl]; omega
        rw [List.drop_append_of_le_length h1, List.drop_drop,
          List.drop_append_of_le_length
            (show xs.length + 1 - m ≤ xs.length from by omega),
          show xs.length - m + 1 = xs.length + 1 - m from by omega]
    · have hcond : ¬ m < (List.drop (xs.length - m) xs).length + 1 := by
        rw [hdl]; omega
      rw [if_neg hcond, show xs.length - m = 0 from by omega, List.drop_zero,
        show (xs ++ [x]).length - m = 0 from (by simp; omega), List.drop_zero]

lemma get_obs_client1 : get_obs client1 [] = some (obs1, []) := by
  have h1 : get_imgs client1.imgResponses = some obs1.img := by decide
  have h2 : pollLidar client1.lidarSamples = some sample4 := by decide
  have h3 : process_lidar sample4 = some none := by decide
  unfold get_obs
  simp only [h1, h2, h3, add_to_history_zero]
  rfl

lemma range_foldl_replicate (f : List Steer → Steer → List Steer) (s : Steer)
    (n : Nat) (init : List Steer) :
    (List.range n).foldl (fun h _ => f h s) init
      = (List.replicate n s).foldl f init := by
  induction n with
  | zero => rfl
  | succ k ih =>
    rw [List.range_succ, List.replicate_succ', List.foldl_append,
      List.foldl_append, List.foldl_cons, List.foldl_cons, List.foldl_nil,
      List.foldl_nil, ih]

lemma pollLidar_min (samples : List (List ℚ)) (r : List ℚ)
    (h : pollLidar samples = some r) : 3 ≤ r.length := by
  induction samples with
  | nil => cases h
  | cons s rest ih =>
    unfold pollLidar at h
    split at h
    · cases h; assumption
    · exact ih h

/-- Claim C1 (code_bug evidence): the polling loop of `client1` accepts the
12-scalar (4-point) sample, yet the `lidar_pc` field of the observation
returned by `reset` — and by `step` after it — is Python `None`, not a
4-element list of planar points: `process_lidar` never returns its computed
array (its `return pcnp` line is commented out). -/
theorem C1_process_lidar_returns_none :
    pollLidar client1.lidarSamples = some sample4
    ∧ sample4.length = 12
    ∧ (reset client1 []).map (fun p => p.1.lidar_pc) = some none
    ∧ (step ⟨0, 0⟩ client1 []).map (fun p => p.1.obs.lidar_pc) = some none := by
  refine ⟨by decide, by decide, by decide, by decide⟩

/-- Claim C2 (counterexample): the recording condition of `add_to_history` is
satisfiable — with angle -0.1 it holds, and 40 copies of the command are
appended to the (previously empty) history buffer. -/
theorem C2_counterexample_neg_angle :
    add_to_history [] negSteer = List.replicate 40 negSteer
    ∧ add_to_history [] negSteer ≠ [] := by
  have hneg : negSteer.angle < 0 := by norm_num [negSteer]
  have hc : |negSteer.angle| > 5 / 100 ∧ negSteer.angle < -(5 / 100) :=
    ⟨by rw [abs_of_neg hneg]; norm_num [negSteer], by norm_num [negSteer]⟩
  have h40 : add_to_history [] negSteer = List.replicate 40 negSteer := by
    unfold add_to_history
    rw [if_pos hc, range_foldl_replicate, foldl_deque_append]
    simp [maxlen]
  exact ⟨h40, by rw [h40]; simp⟩

/-- Claim C2 (amended): the condition `|angle| > 0.05 ∧ angle < -0.05` is not
a contradiction; it is equivalent to `angle < -0.05`, and `add_to_history`
appends 40 copies exactly when the angle is below -0.05, leaving the buffer
unchanged otherwise. -/
theorem C2_condition_equiv_neg_threshold :
    ∀ (hist : List Steer) (s : Steer),
      ((|s.angle| > 5 / 100 ∧ s.angle < -(5 / 100)) ↔ s.angle < -(5 / 100))
      ∧ add_to_history hist s =
          if s.angle < -(5 / 100) then
            (List.range 40).foldl (fun h _ => deque_append maxlen h s) hist
          else hist := by
  intro hist s
  have hiff : (|s.angle| > 5 / 100 ∧ s.angle < -(5 / 100)) ↔
      s.angle < -(5 / 100) := by
    constructor
    · exact fun h => h.2
    · intro h
      refine ⟨?_, h⟩
      have h0 : s.angle < 0 := lt_trans h (by norm_num)
      rw [abs_of_neg h0]
      linarith
  refine ⟨hiff, ?_⟩
  unfold add_to_history
  by_cases h : s.angle < -(5 / 100)
  · rw [if_pos (hiff.mpr h), if_pos h]
  · rw [if_neg (fun hc => h (hiff.mp hc)), if_neg h]

/-- Claim C3: whenever `step` returns, the step tuple has `done = false`,
`reward = 0` and an empty info mapping, for every action, client behaviour and
history state — reward and proximity termination are constant stubs. -/
theorem C3_step_stub_fields :
    ∀ (action : Action) (c : Client) (hist : List Steer)
      (r : StepResult) (h2 : List Steer),
      step action c hist = some (r, h2) →
        r.reward = 0 ∧ r.done = false ∧ r.info = [] := by
  intro action c hist r h2 h
  unfold step at h
  split at h
  · cases h
  · cases h
    exact ⟨rfl, rfl, rfl⟩

/-- Witness for C3: `step` on the concrete `client1` returns `res1`, whose
fields are the pinned stub values. -/
theorem C3_step_stub_fields_witness :
    res1.reward = 0 ∧ res1.done = false ∧ res1.info = [] :=
  C3_step_stub_fields ⟨0, 0⟩ client1 [] res1 []
    (by unfold step; rw [get_obs_client1]; rfl)

/-- Claim C4: `pc_to_np` maps a point cloud of N triples to exactly N pairs,
the i-th pair being (y_i, x_i) — the axes are swapped; in particular a single
point (a,b,c) yields [(b,a)]. -/
theorem C4_pc_to_np_swap :
    (∀ (l : List (ℚ × ℚ × ℚ)),
        pc_to_np (flat3 l) = some (l.map (fun t => (t.2.1, t.1))))
    ∧ ∀ (a b c : ℚ), pc_to_np [a, b, c] = some [(b, a)] := by
  constructor
  · intro l
    simp [pc_to_np, chunk3_flat3]
  · intro a b c
    rfl

/-- Claim C5: folding any sequence of appends into the empty history deque
leaves `min n 500` entries, namely the last ones — all but the `n - 500`
oldest entries are evicted from the head (FIFO).  At n = 501 this leaves
exactly 500 entries with precisely the oldest one dropped. -/
theorem C5_history_capacity_fifo :
    ∀ (xs : List Steer),
      (xs.foldl (deque_append maxlen) []).length = min xs.length maxlen
      ∧ xs.foldl (deque_append maxlen) [] = xs.drop (xs.length - maxlen) := by
  intro xs
  refine ⟨?_, foldl_deque_append maxlen xs⟩
  rw [foldl_deque_append, List.length_drop]
  omega

/-- Claim C6: the polling loop skips any sample with fewer than 3 scalars
(it keeps polling, and such a sample is never the one handed on), accepts a
sample with at least 3 scalars on the iteration it arrives, and every sample
it hands to the processing stage has at least 3 scalars. -/
theorem C6_poll_accepts_ge3 :
    ∀ (s : List ℚ) (rest : List (List ℚ)),
      (s.length < 3 → pollLidar (s :: rest) = pollLidar rest)
      ∧ (3 ≤ s.length → pollLidar (s :: rest) = some s)
      ∧ ∀ (r : List ℚ), pollLidar (s :: rest) = some r → 3 ≤ r.length := by
  intro s rest
  refine ⟨?_, ?_, fun r h => pollLidar_min (s :: rest) r h⟩
  · intro h
    show (if 3 ≤ s.length then some s else pollLidar rest) = pollLidar rest
    rw [if_neg (by omega)]
  · intro h
    show (if 3 ≤ s.length then some s else pollLidar rest) = some s
    rw [if_pos h]

/-- Witness for C6: a 2-scalar sample is skipped, a 3-scalar sample is
accepted immediately, and the accepted sample indeed has ≥ 3 scalars. -/
theorem C6_poll_accepts_ge3_witness :
    pollLidar [[1, 2], [1, 2, 3]] = pollLidar [[1, 2, 3]]
    ∧ pollLidar [[1, 2, 3]] = some [1, 2, 3]
    ∧ 3 ≤ ([1, 2, 3] : List ℚ).length :=
  ⟨(C6_poll_accepts_ge3 [1, 2] [[1, 2, 3]]).1 (by decide),
   (C6_poll_accepts_ge3 [1, 2, 3] []).2.1 (by decide),
   (C6_poll_accepts_ge3 [1, 2, 3] []).2.2 [1, 2, 3]
     ((C6_poll_accepts_ge3 [1, 2, 3] []).2.1 (by decide))⟩

/-- Claim C7: for positive declared dimensions, image decoding succeeds
exactly when the buffer length is height×width×channels for some channel
count; a 2×2 response with 12 bytes decodes to the 2×2×3 array, and one with
11 bytes fails (the error propagates, no coerced or partial image). -/
theorem C7_image_decode_iff_divisible :
    (∀ (rep : ImgResponse), 0 < rep.height * rep.width →
        ((bytestr_to_np rep).isSome
          ↔ ∃ ch, rep.image_data_uint8.length = rep.height * rep.width * ch))
    ∧ bytestr_to_np ⟨2, 2, List.range 12⟩
        = some [[[0, 1, 2], [3, 4, 5]], [[6, 7, 8], [9, 10, 11]]]
    ∧ bytestr_to_np ⟨2, 2, List.range 11⟩ = none := by
  refine ⟨?_, by decide, by decide⟩
  intro rep hpos
  unfold bytestr_to_np
  rw [if_neg (by omega)]
  by_cases hd : rep.height * rep.width ∣ rep.image_data_uint8.length
  · rw [if_pos hd]
    obtain ⟨ch, hch⟩ := hd
    exact iff_of_true rfl ⟨ch, hch⟩
  · rw [if_neg hd]
    exact iff_of_false (by simp) (fun hex => hd ⟨hex.choose, hex.choose_spec⟩)

/-- Witness for C7: the decode-success criterion applied at the concrete
2×2 response with a 12-byte buffer. -/
theorem C7_image_decode_iff_divisible_witness :
    (bytestr_to_np ⟨2, 2, List.range 12⟩).isSome
      ↔ ∃ ch, (List.range 12).length = 2 * 2 * ch :=
  C7_image_decode_iff_divisible.1 ⟨2, 2, List.range 12⟩ (by norm_num)

/-- Claim C8: a steering record with angle 0.06 does not trigger the 40-fold
amplification — `add_to_history` leaves the buffer unchanged. -/
theorem C8_angle_006_no_append :
    ∀ (hist : List Steer) (v sp : ℚ),
      add_to_history hist ⟨6 / 100, v, sp⟩ = hist := by
  intro hist v sp
  unfold add_to_history
  rw [if_neg]
  rintro ⟨-, h2⟩
  norm_num at h2

/-- Claim C9: neither `reset` nor `step` ever clears or shrinks the history
buffer — the buffer after the call equals the buffer before it (the zeroed
steering record fed by the observation cycle appends nothing), so it persists
across all calls for the lifetime of the environment. -/
theorem C9_reset_preserves_history :
    (∀ (c : Client) (hist : List Steer), runOp hist (Op.reset c) = hist)
    ∧ ∀ (action : Action) (c : Client) (hist : List Steer),
        runOp hist (Op.step action c) = hist :=
  ⟨fun c hist => runOp_fix hist (Op.reset c),
   fun action c hist => runOp_fix hist (Op.step action c)⟩

/-- Claim C10: through the public interface the history buffer stays empty —
every sequence of `reset`/`step` calls starting from the freshly constructed
(empty) buffer leaves it empty, since each observation cycle feeds the
recording path an all-zero steering record that fails the condition. -/
theorem C10_history_always_empty :
    ∀ (ops : List Op), ops.foldl runOp [] = [] := by
  intro ops
  induction ops with
  | nil => rfl
  | cons op rest ih =>
    rw [List.foldl_cons, runOp_fix]
    exact ih

end SIMf110
